import Mathlib

/-!
Verification development for the PDFExtractionAPI repository.

The repository has three Python modules:
  * `extractor.py` — `extract_vector_diagrams` (contour-based diagram
    detection on rasterized pages) and `extract_structured_content`
    (a line-classifying state machine building a chapter/topic/section/
    exercise tree), with helpers `_add_section` and `_add_exercise`;
  * `app.py` — the Flask upload endpoint `upload_pdf`;
  * `helpers.py` — `save_json_to_mysql`.

This file shallowly embeds those functions.  Rasterization and contour
detection (PyMuPDF / OpenCV) are external libraries: a rendered page is
modelled as a `PageRaster` carrying the page dimensions, the rendered
image dimensions and the detected contours (area plus bounding
rectangle), which is exactly the data the repository's code consumes
from those libraries.  Python floats are modelled as rationals,
machine-independent; text lines are Lean `String`s.
-/

/-! ## Python string primitives used by the extractor -/

/-- The ASCII whitespace characters stripped by Python's `str.strip()`
and matched by the regex class `\s` (the Unicode-only members, which the
textbook inputs never contain, are omitted). -/
def isPySpace (c : Char) : Bool :=
  c == ' ' || c == '\t' || c == '\n' || c == '\r' || c == '\x0b' || c == '\x0c'

/-- `str.strip()` on a character list: drop whitespace at both ends. -/
def pyStripL (cs : List Char) : List Char :=
  ((cs.dropWhile isPySpace).reverse.dropWhile isPySpace).reverse

/-- Python's `line.strip()`. -/
def pyStrip (s : String) : String := String.mk (pyStripL s.data)

/-- `prefixOfL p s` decides whether `p` is a prefix of `s`
(Python's `str.startswith`). -/
def prefixOfL : List Char → List Char → Bool
  | [], _ => true
  | _ :: _, [] => false
  | a :: as, b :: bs => a == b && prefixOfL as bs

/-- Python's `s.startswith(pre)`. -/
def strStartsWith (s pre : String) : Bool := prefixOfL pre.data s.data

/-- The `\d+\.\d+` prefix shared by the two topic-heading patterns of
extractor.py (lines 124 and 161): when the line starts with digits, a
dot and digits, return the remainder; else `none`.  The extractor only
ever applies these patterns to `line.strip()`, a stripped line coming
from `text.split('\n')`: such a line has no newline inside and does not
end in whitespace, on which domain the regexes are equivalent to this
backtracking-free reading (digits are ASCII digits, as in the PDFs
processed). -/
def afterNumDot (cs : List Char) : Option (List Char) :=
  if (cs.takeWhile Char.isDigit).isEmpty then none else
  match cs.dropWhile Char.isDigit with
  | c :: r2 =>
    if c = '.' then
      if (r2.takeWhile Char.isDigit).isEmpty then none
      else some (r2.dropWhile Char.isDigit)
    else none
  | [] => none

/-- `re.match(r'^\d+\.\d+\s+(.+)$', line)` continued past `\d+\.\d+`:
require at least one whitespace character, capture the rest. -/
def topicMatchL (cs : List Char) : Option (List Char) :=
  match afterNumDot cs with
  | some r3 =>
    if (r3.takeWhile isPySpace).isEmpty then none
    else if (r3.dropWhile isPySpace).isEmpty then none
    else some (r3.dropWhile isPySpace)
  | none => none

/-- `re.match(r'^\d+\.\d+\s+(.+)$', line)` on strings, with the captured
free text. -/
def topicMatch (s : String) : Option String :=
  (topicMatchL s.data).map (fun g => String.mk g)

/-- The test `re.match(r'^\d+\.\d+\s', line)` used as the stop condition
of the inner exercise-content loop (extractor.py line 161). -/
def topicHeadTestL (cs : List Char) : Bool :=
  match afterNumDot cs with
  | some r3 =>
    match r3 with
    | c :: _ => isPySpace c
    | [] => false
  | none => false

/-- Bool form of the topic-heading stop test on strings. -/
def topicHeadTest (s : String) : Bool := topicHeadTestL s.data

/-! ## Data model of the document tree (extractor.py)

`_add_exercise` appends the *same* Python dict to a parent list each
time the current exercise is flushed, and keeps mutating it afterwards.
To model this aliasing, exercise records live in an allocation `store`
(a list, one cell per `current_exercise = {...}` allocation) and the
`exercises` lists of chapter and topics hold store indices.  Sections
and topics are never aliased by the code and are stored by value. -/

/-- An `{"img": image_path}` entry of an `imageUrls` list. -/
structure ImgRef where
  img : String
deriving DecidableEq, Repr

/-- A diagram record emitted by `extract_vector_diagrams`. -/
structure Diagram where
  page : Nat
  x : ℚ
  y : ℚ
  width : ℚ
  height : ℚ
  imagePath : String
deriving DecidableEq, Repr

/-- A section dict as built by `_add_section`. -/
structure SectionR where
  sectionName : String
  content : String
  imageUrls : List ImgRef
deriving DecidableEq, Repr

/-- An exercise dict as allocated on an `EXERCISE` heading. -/
structure ExerciseR where
  exercise : String
  content : String
  imageUrls : List ImgRef
deriving DecidableEq, Repr

/-- A topic dict. `exercises` holds store indices (see above). -/
structure TopicR where
  topicName : String
  imageUrls : List ImgRef
  sections : List SectionR
  exercises : List Nat
deriving DecidableEq, Repr

/-- The chapter dict. `exercises` holds store indices. -/
structure ChapterR where
  chapterName : String
  topics : List TopicR
  exercises : List Nat
deriving DecidableEq, Repr

/-- The mutable state of `extract_structured_content`'s loop
(extractor.py lines 86-96; the unused `current_section` is omitted). -/
structure MState where
  chapter : ChapterR
  currentTopic : Option TopicR
  currentExercise : Option Nat
  exerciseSection : Bool
  contentBlocks : List String
  store : List ExerciseR
deriving DecidableEq, Repr

/-- Update the `j`-th element of a list in place (models mutating the
dict that a store index points to). -/
def listModify {α : Type} (f : α → α) : Nat → List α → List α
  | _, [] => []
  | 0, a :: as => f a :: as
  | n + 1, a :: as => a :: listModify f n as

/-! ## The structuring helpers -/

/-- `_add_section(topic, content, diagrams, page_rect)` (extractor.py
lines 194-207): build a section named `Section N`, attach every diagram
of the current page, append it to the topic's sections.  The
`page_rect` parameter of the source is unused there and omitted. -/
def addSection (t : TopicR) (content : String) (pd : List Diagram) : TopicR :=
  let s : SectionR :=
    { sectionName := "Section " ++ toString (t.sections.length + 1)
      content := content
      imageUrls := pd.map (fun d => ImgRef.mk d.imagePath) }
  { t with sections := t.sections ++ [s] }

/-- `_add_exercise(current_topic or chapter, current_exercise, content,
page_diagrams, page_rect)` (extractor.py lines 209-220): overwrite the
exercise's `content`, extend its `imageUrls` with the page's diagrams,
and append the exercise (its store index `j`) to the parent's
`exercises` list — the parent being the current topic when one is open,
else the chapter, exactly as `current_topic or chapter` evaluates. -/
def applyAddExercise (st : MState) (j : Nat) (content : String) (pd : List Diagram) : MState :=
  let st' := { st with
    store := listModify (fun e : ExerciseR =>
      { e with content := content
               imageUrls := e.imageUrls ++ pd.map (fun d : Diagram => ImgRef.mk d.imagePath) }) j st.store }
  match st'.currentTopic with
  | some t => { st' with currentTopic := some { t with exercises := t.exercises ++ [j] } }
  | none => { st' with chapter := { st'.chapter with exercises := st'.chapter.exercises ++ [j] } }

/-- The topic-heading branch (extractor.py lines 125-140): flush pending
content into the current topic when one is open (the buffer is *not*
touched when no topic is open), push the completed topic, open a new
topic named by the captured group `g`. -/
def topicStep (st : MState) (pd : List Diagram) (g : String) : MState :=
  let st1 :=
    match st.currentTopic with
    | some t =>
      if st.contentBlocks = [] then
        { st with chapter := { st.chapter with topics := st.chapter.topics ++ [t] } }
      else
        { st with
          chapter := { st.chapter with
            topics := st.chapter.topics ++
              [addSection t (String.intercalate "\n" st.contentBlocks) pd] }
          contentBlocks := [] }
    | none => st
  { st1 with currentTopic := some { topicName := g, imageUrls := [], sections := [], exercises := [] } }

/-- The exercise-heading branch (extractor.py lines 143-155): set the
in-exercise flag, flush pending content into the still-open exercise (if
any), allocate a fresh exercise dict capturing the heading line. -/
def exerciseHeadStep (st : MState) (pd : List Diagram) (sl : String) : MState :=
  let st1 := { st with exerciseSection := true }
  let st2 :=
    match st1.currentExercise with
    | some j =>
      if st1.contentBlocks = [] then st1
      else
        { applyAddExercise st1 j (String.intercalate "\n" st1.contentBlocks) pd with
          contentBlocks := [] }
    | none => st1
  { st2 with
    store := st2.store ++ [{ exercise := sl, content := "", imageUrls := [] }]
    currentExercise := some st2.store.length }

/-- End of the inner exercise-content loop (extractor.py lines 166-171):
the collected lines were appended to `content_blocks`; flush them into
the current exercise if one is open, and leave the exercise block. -/
def exerciseFlushStep (st : MState) (pd : List Diagram) (blockLines : List String) : MState :=
  let blocks := st.contentBlocks ++ blockLines
  let st1 :=
    match st.currentExercise with
    | some j =>
      if blocks = [] then { st with contentBlocks := blocks }
      else
        { applyAddExercise { st with contentBlocks := blocks } j
            (String.intercalate "\n" blocks) pd with
          contentBlocks := [] }
    | none => { st with contentBlocks := blocks }
  { st1 with exerciseSection := false }

/-- End-of-page flush (extractor.py lines 178-183): remaining content
goes into the current exercise if one exists, else into the current
topic as a section, else it is dropped; the buffer is cleared. -/
def endPageFlush (st : MState) (pd : List Diagram) : MState :=
  if st.contentBlocks = [] then st
  else
    let st1 :=
      match st.currentExercise with
      | some j => applyAddExercise st j (String.intercalate "\n" st.contentBlocks) pd
      | none =>
        match st.currentTopic with
        | some t =>
          { st with currentTopic := some (addSection t (String.intercalate "\n" st.contentBlocks) pd) }
        | none => st
    { st1 with contentBlocks := [] }

/-- The inner while loop of the exercise branch (extractor.py lines
160-164): consume lines until one whose stripped form starts with
`EXERCISE` or matches the topic-heading test, collecting the non-empty
stripped lines; return the collected lines and the unconsumed rest. -/
def collectBlk : List String → List String × List String
  | [] => ([], [])
  | l :: ls =>
    if strStartsWith (pyStrip l) "EXERCISE" || topicHeadTest (pyStrip l) then
      ([], l :: ls)
    else
      let p := collectBlk ls
      (if pyStrip l == "" then p.1 else pyStrip l :: p.1, p.2)

/-- The per-line loop of `extract_structured_content` (extractor.py
lines 110-175), as a fueled structural recursion; one unit of fuel is
spent per outer-loop iteration, and every iteration consumes at least
one line, so fuel `= ls.length` suffices (see `processLines`).
Branches in source order: skip blank lines; chapter-title detection on
the first page; topic heading; exercise heading; exercise-content
collection; plain content. -/
def processLinesF (pd : List Diagram) (pnum : Nat) : Nat → MState → List String → MState
  | 0, st, _ => st
  | _ + 1, st, [] => st
  | fuel + 1, st, l :: ls =>
    if pyStrip l = "" then processLinesF pd pnum fuel st ls
    else if pnum = 0 ∧ pyStrip l = "CIRCLES" then
      processLinesF pd pnum fuel
        { st with chapter := { st.chapter with chapterName := pyStrip l } } ls
    else
      match topicMatch (pyStrip l) with
      | some g => processLinesF pd pnum fuel (topicStep st pd g) ls
      | none =>
        if strStartsWith (pyStrip l) "EXERCISE" then
          processLinesF pd pnum fuel (exerciseHeadStep st pd (pyStrip l)) ls
        else if st.exerciseSection then
          processLinesF pd pnum fuel
            (exerciseFlushStep st pd (pyStrip l :: (collectBlk ls).1)) (collectBlk ls).2
        else
          processLinesF pd pnum fuel { st with contentBlocks := st.contentBlocks ++ [pyStrip l] } ls

/-- The line loop of one page. -/
def processLines (pd : List Diagram) (pnum : Nat) (st : MState) (ls : List String) : MState :=
  processLinesF pd pnum ls.length st ls

/-- `page_diagrams = [d for d in diagrams if d["page"] == page_num + 1]`
(extractor.py line 105). -/
def pageDiagList (diagrams : List Diagram) (pnum : Nat) : List Diagram :=
  diagrams.filter (fun d => d.page == pnum + 1)

/-- Processing of one page: run the line loop with the page's diagrams,
then flush the remaining content (extractor.py lines 99-183). -/
def processPage (diagrams : List Diagram) (pnum : Nat) (st : MState) (lines : List String) : MState :=
  endPageFlush (processLines (pageDiagList diagrams pnum) pnum st lines) (pageDiagList diagrams pnum)

/-- The page loop of `extract_structured_content`. -/
def runPages (diagrams : List Diagram) : Nat → MState → List (List String) → MState
  | _, st, [] => st
  | n, st, pg :: pgs => runPages diagrams (n + 1) (processPage diagrams n st pg) pgs

/-- The initial chapter dict (extractor.py lines 86-90). -/
def initChapter : ChapterR := { chapterName := "CIRCLES", topics := [], exercises := [] }

/-- The initial loop state (extractor.py lines 92-96). -/
def initState : MState :=
  { chapter := initChapter, currentTopic := none, currentExercise := none
    exerciseSection := false, contentBlocks := [], store := [] }

/-- The result envelope of `extract_structured_content`: the response
fields plus the exercise store (holding the dicts the index lists of
`chapter`/topics point into). -/
structure ExtractResult where
  book : String
  subject : String
  chapter : ChapterR
  store : List ExerciseR
deriving DecidableEq, Repr

/-- The structuring pass of `extract_structured_content` (extractor.py
lines 75-192), taking the book name, the full diagram list and the
per-page text lines: run all pages from the initial state, append the
last open topic, wrap the chapter. -/
def extractStructure (pdfName : String) (diagrams : List Diagram)
    (pages : List (List String)) : ExtractResult :=
  let stF := runPages diagrams 0 initState pages
  let ch :=
    match stF.currentTopic with
    | some t => { stF.chapter with topics := stF.chapter.topics ++ [t] }
    | none => stF.chapter
  { book := pdfName, subject := "Mathematics", chapter := ch, store := stF.store }

/-! ## The diagram extractor (`extract_vector_diagrams`) -/

/-- A contour reported by `cv2.findContours` on the thresholded raster:
its `cv2.contourArea` and its `cv2.boundingRect` in rendered pixels. -/
structure Contour where
  area : ℚ
  x : Nat
  y : Nat
  w : Nat
  h : Nat
deriving DecidableEq, Repr

/-- One rendered page: the original page dimensions (`page.rect`), the
rendered image dimensions, and the detected contours in detection
order. -/
structure PageRaster where
  pageWidth : ℚ
  pageHeight : ℚ
  imgW : Nat
  imgH : Nat
  contours : List Contour
deriving DecidableEq, Repr

/-- `os.path.basename`: the part after the last `/`. -/
def basename (s : String) : String :=
  String.mk ((s.data.reverse.takeWhile (fun c => !(c == '/'))).reverse)

/-- `os.path.join` for the relative path components the code joins
(no normalization of empty or absolute components, which the code never
produces in the final component). -/
def joinPath (a b : String) : String := a ++ "/" ++ b

/-- The stem of `os.path.splitext`: strip the last-dot extension, except
when every character before that dot is itself a dot (CPython's
leading-dot rule). -/
def splitextStem (s : String) : String :=
  match s.data.reverse.dropWhile (fun c => !(c == '.')) with
  | '.' :: stemRev =>
    if stemRev.any (fun c => !(c == '.')) then String.mk stemRev.reverse else s
  | _ => s

/-- `f"page_{page_num+1}_diagram_{i+1}.jpg"` (extractor.py line 49). -/
def diagramFilename (n k : Nat) : String :=
  "page_" ++ toString n ++ "_diagram_" ++ toString k ++ ".jpg"

/-- The per-page body of `extract_vector_diagrams` (extractor.py lines
36-60): keep each contour whose area exceeds 1000, scale its bounding
rectangle down by `zoom`, and emit the record with its served image
path `/images/<basename(output_dir)>/page_<n>_diagram_<k>.jpg`, where
`k - 1` is the contour's index in detection order. -/
def pageDiagramsFor (zoom : ℚ) (outputDir : String) (pnum : Nat) (p : PageRaster) : List Diagram :=
  p.contours.enum.filterMap (fun ic =>
    if 1000 < ic.2.area then
      some { page := pnum + 1
             x := (ic.2.x : ℚ) / zoom
             y := (ic.2.y : ℚ) / zoom
             width := (ic.2.w : ℚ) / zoom
             height := (ic.2.h : ℚ) / zoom
             imagePath := "/images/" ++ basename outputDir ++ "/"
               ++ diagramFilename (pnum + 1) (ic.1 + 1) }
    else none)

/-- The files written by `cv2.imwrite` for one page (extractor.py lines
48-51): one per kept contour, at `output_dir/page_<n>_diagram_<k>.jpg`. -/
def pageFilesFor (outputDir : String) (pnum : Nat) (p : PageRaster) : List String :=
  p.contours.enum.filterMap (fun ic =>
    if 1000 < ic.2.area then
      some (joinPath outputDir (diagramFilename (pnum + 1) (ic.1 + 1)))
    else none)

/-- `extract_vector_diagrams(pdf_path, output_dir, zoom)`: all pages'
diagram records in page order. -/
def extractVectorDiagrams (zoom : ℚ) (outputDir : String) (rasters : List PageRaster) : List Diagram :=
  (rasters.enum.map (fun np => pageDiagramsFor zoom outputDir np.1 np.2)).flatten

/-- The contours kept by the area filter, with their detection indices. -/
def keptContours (p : PageRaster) : List (Nat × Contour) :=
  p.contours.enum.filter (fun ic => decide (1000 < ic.2.area))

/-- The image output directory computed by `extract_structured_content`
(extractor.py lines 67-68): `output_base_dir/images/<pdf stem>`. -/
def pipelineImageDir (pdfPath outputBase : String) : String :=
  joinPath (joinPath outputBase "images") (splitextStem (basename pdfPath))

/-- `extract_vector_diagrams` as invoked by `extract_structured_content`
(extractor.py line 72), with the default `zoom = 3`. -/
def pipelineDiagrams (pdfPath outputBase : String) (rasters : List PageRaster) : List Diagram :=
  extractVectorDiagrams 3 (pipelineImageDir pdfPath outputBase) rasters

/-! ## The HTTP endpoint (`app.py`) and persistence (`helpers.py`) -/

/-- What one call into the MySQL layer does, as an oracle: the
connection may raise, `is_connected` may be false, the insert may
raise, or some other exception (e.g. a `TypeError` on a `None` book
name) may surface inside the `try` block. -/
inductive DbBehavior where
  | ok
  | connectFail (msg : String)
  | notConnected
  | insertFail (msg : String)
  | generalFail (msg : String)
deriving DecidableEq, Repr

/-- A Python exception escaping the `try` body: either a
`mysql.connector.Error` or any other `Exception`. -/
inductive PyExc where
  | mysqlError (msg : String)
  | otherError (msg : String)
deriving DecidableEq, Repr

/-- The `try` body of `save_json_to_mysql` (helpers.py lines 9-37):
connect, check the connection, build the row, insert and commit.  Under
the given oracle it either returns normally (with the message printed)
or raises. -/
def saveBody {α : Type} (_data : α) (db : DbBehavior) : Except PyExc String :=
  match db with
  | .connectFail m => .error (.mysqlError m)
  | .notConnected => .ok "Failed to connect to the MySQL database."
  | .insertFail m => .error (.mysqlError m)
  | .generalFail m => .error (.otherError m)
  | .ok => .ok "Data inserted successfully into pdfextractiondata."

/-- The outcome of `save_json_to_mysql`: it always returns; a raised
exception is only logged. -/
inductive SaveOutcome where
  | completed (log : String)
  | absorbed (log : String)
deriving DecidableEq, Repr

/-- `save_json_to_mysql` (helpers.py lines 5-49): run the body; the
`except mysql.connector.Error` and `except Exception` clauses catch
every exception the MySQL layer can raise and merely log it. -/
def save_json_to_mysql {α : Type} (data : α) (db : DbBehavior) : SaveOutcome :=
  match saveBody data db with
  | .ok m => .completed m
  | .error (.mysqlError m) => .absorbed ("MySQL error: " ++ m)
  | .error (.otherError m) => .absorbed ("General error: " ++ m)

/-- The per-file loop of `upload_pdf` (app.py lines 30-63): skip files
with an empty filename; otherwise invoke the extraction core, hand the
result to `save_json_to_mysql` (whose outcome is discarded), and append
the result entry.  `extract` abstracts the stored-file extraction,
`db` the MySQL layer's behavior per file. -/
def uploadLoop {α : Type} (extract : String → α) (db : String → DbBehavior) :
    List String → List α
  | [] => []
  | f :: fs =>
    if f == "" then uploadLoop extract db fs
    else
      let _saved := save_json_to_mysql (extract f) (db f)
      extract f :: uploadLoop extract db fs

/-- `upload_pdf` (app.py lines 22-65): a request without a `files`
multipart field gets an error response; otherwise the file list is
processed and the result list returned. -/
def upload_pdf {α : Type} (filesField : Option (List String))
    (extract : String → α) (db : String → DbBehavior) : Except String (List α) :=
  match filesField with
  | none => .error "'files' field is missing"
  | some files => .ok (uploadLoop extract db files)

/-! ## Views and invariants used by the theorems -/

/-- All topic names produced so far: the flushed topics of the chapter
followed by the still-open topic, if any. -/
def TopicsAcc (st : MState) : List String :=
  st.chapter.topics.map (fun t => t.topicName) ++
    (st.currentTopic.map (fun t => t.topicName)).toList

/-- The heading lines of all exercise dicts allocated so far. -/
def ExNames (st : MState) : List String := st.store.map (fun e => e.exercise)

/-- A section is *good* when its content is the newline-join of lines
none of which matches the topic-heading pattern. -/
def GoodSection (s : SectionR) : Prop :=
  ∃ blocks, s.content = String.intercalate "\n" blocks ∧
    ∀ b ∈ blocks, topicMatch b = none

/-- All sections of a topic are good. -/
def GoodTopic (t : TopicR) : Prop := ∀ s ∈ t.sections, GoodSection s

/-- Invariant carried through the line loop: pending content lines are
never topic headings, and every section built so far is good. -/
def GoodState (st : MState) : Prop :=
  (∀ b ∈ st.contentBlocks, topicMatch b = none) ∧
  (∀ t ∈ st.chapter.topics, GoodTopic t) ∧
  (∀ t, st.currentTopic = some t → GoodTopic t)

/-- A page raster whose single contour has area exactly 1000 (used for
the C6 counterexample). -/
def boundaryRaster : PageRaster := ⟨200, 300, 600, 900, [⟨1000, 0, 0, 50, 20⟩]⟩

/-- A page raster whose contours all fall below the area threshold. -/
def belowRaster : PageRaster := ⟨100, 100, 300, 300, [⟨999, 0, 0, 40, 30⟩, ⟨500, 1, 1, 30, 30⟩]⟩

/-- The rasterization/contour-detection contract assumed of the external
libraries: the rendered image is at most `zoom` times the page in each
dimension, every bounding rectangle lies inside the rendered image, and
a contour's area is at most the area of its bounding rectangle. -/
def RasterWF (zoom : ℚ) (p : PageRaster) : Prop :=
  ((p.imgW : ℚ) ≤ zoom * p.pageWidth) ∧ ((p.imgH : ℚ) ≤ zoom * p.pageHeight) ∧
  ∀ c ∈ p.contours,
    c.x + c.w ≤ p.imgW ∧ c.y + c.h ≤ p.imgH ∧ c.area ≤ ((c.w * c.h : Nat) : ℚ)

def sampleRaster : PageRaster := ⟨200, 300, 600, 900, [⟨2000, 3, 4, 60, 50⟩]⟩

def sampleDiagram : Diagram :=
  { page := 1, x := ((3 : Nat) : ℚ) / 3, y := ((4 : Nat) : ℚ) / 3
    width := ((60 : Nat) : ℚ) / 3, height := ((50 : Nat) : ℚ) / 3
    imagePath := "/images/bk/page_1_diagram_1.jpg" }

/-! ## Helper lemmas: matchers and string tests -/

theorem takeWhile_ne_nil_head {α : Type} {p : α → Bool} {l : List α}
    (h : l.takeWhile p ≠ []) : ∃ c cs, l = c :: cs ∧ p c = true := by
  cases l with
  | nil => simp at h
  | cons a as =>
    rw [List.takeWhile_cons] at h
    by_cases hp : p a
    · exact ⟨a, as, rfl, hp⟩
    · simp [hp] at h

/-- A full topic-heading match implies the inner loop's stop test. -/
theorem topicHeadTestL_of_match {cs g : List Char}
    (h : topicMatchL cs = some g) : topicHeadTestL cs = true := by
  unfold topicMatchL at h
  unfold topicHeadTestL
  cases ha : afterNumDot cs with
  | none => rw [ha] at h; simp at h
  | some r3 =>
    rw [ha] at h
    simp only at h ⊢
    by_cases h1 : (r3.takeWhile isPySpace).isEmpty
    · simp [h1] at h
    · obtain ⟨c, cs', rfl, hc⟩ := takeWhile_ne_nil_head (by simpa [List.isEmpty_iff] using h1)
      simp [hc]

/-- Contrapositive: a line failing the stop test cannot be a topic heading. -/
theorem topicMatchL_none_of_testFalse {cs : List Char}
    (h : topicHeadTestL cs = false) : topicMatchL cs = none := by
  cases hm : topicMatchL cs with
  | none => rfl
  | some g => rw [topicHeadTestL_of_match hm] at h; cases h

theorem topicMatch_none_of_testFalse {s : String}
    (h : topicHeadTest s = false) : topicMatch s = none := by
  unfold topicMatch
  rw [topicMatchL_none_of_testFalse h]
  rfl

theorem topicHeadTest_of_topicMatch {s : String} {g : String}
    (h : topicMatch s = some g) : topicHeadTest s = true := by
  unfold topicMatch at h
  cases hm : topicMatchL s.data with
  | none => rw [hm] at h; cases h
  | some a => exact topicHeadTestL_of_match hm

/-- A line starting with `EXERCISE` is not a topic heading. -/
theorem topicMatch_none_of_exercise {s : String}
    (h : strStartsWith s "EXERCISE" = true) : topicMatch s = none := by
  unfold strStartsWith at h
  rw [show "EXERCISE".data = 'E' :: "XERCISE".data from rfl] at h
  unfold topicMatch topicMatchL afterNumDot
  cases hd : s.data with
  | nil => rw [hd] at h; simp [prefixOfL] at h
  | cons b bs =>
    rw [hd] at h
    have hb : b = 'E' := by
      simp [prefixOfL] at h
      exact h.1.symm
    subst hb
    have : Char.isDigit 'E' = false := rfl
    simp [List.takeWhile_cons, this]

/-- A line starting with `EXERCISE` is non-empty. -/
theorem ne_empty_of_exercise {s : String}
    (h : strStartsWith s "EXERCISE" = true) : ¬ s = "" := by
  intro he
  subst he
  simp [strStartsWith, prefixOfL, show "EXERCISE".data = 'E' :: "XERCISE".data from rfl] at h

/-- The specification of the inner collection loop `collectBlk`: it
consumes a maximal block of non-heading lines, collecting the non-empty
stripped ones in order. -/
theorem collectBlk_spec (ls : List String) :
    ∃ pre, ls = pre ++ (collectBlk ls).2 ∧
      (collectBlk ls).1 = (pre.map pyStrip).filter (fun s => !(s == "")) ∧
      ∀ x ∈ pre, strStartsWith (pyStrip x) "EXERCISE" = false ∧ topicHeadTest (pyStrip x) = false := by
  induction ls with
  | nil => exact ⟨[], rfl, rfl, by simp⟩
  | cons l ls ih =>
    by_cases hstop : (strStartsWith (pyStrip l) "EXERCISE" || topicHeadTest (pyStrip l)) = true
    · refine ⟨[], ?_, ?_, by simp⟩ <;> simp [collectBlk, hstop]
    · obtain ⟨pre, hpre, hblk, hall⟩ := ih
      rw [Bool.or_eq_true, not_or] at hstop
      simp only [Bool.not_eq_true] at hstop
      refine ⟨l :: pre, ?_, ?_, ?_⟩
      · simpa [collectBlk, hstop.1, hstop.2] using hpre
      · simp only [collectBlk, hstop.1, hstop.2, Bool.or_self, Bool.false_or, if_neg]
        simp only [List.map_cons, List.filter_cons]
        by_cases he : pyStrip l == ""
        · simp [he, hblk]
        · simp [he, hblk]
      · intro x hx
        rcases List.mem_cons.mp hx with rfl | hx
        · exact ⟨hstop.1, hstop.2⟩
        · exact hall x hx

theorem collectBlk_rest_len (ls : List String) : (collectBlk ls).2.length ≤ ls.length := by
  induction ls with
  | nil => simp [collectBlk]
  | cons l ls ih =>
    by_cases hstop : (strStartsWith (pyStrip l) "EXERCISE" || topicHeadTest (pyStrip l)) = true
    · simp [collectBlk, hstop]
    · simp [collectBlk, hstop]
      exact Nat.le_succ_of_le ih

/-! ## Accumulator views of the state -/

theorem listModify_map {α β : Type} (f : α → α) (g : α → β)
    (hfg : ∀ a, g (f a) = g a) : ∀ (j : Nat) (l : List α), (listModify f j l).map g = l.map g := by
  intro j l
  induction l generalizing j with
  | nil => simp [listModify]
  | cons a as ih =>
    cases j with
    | zero => simp [listModify, hfg]
    | succ n => simp [listModify, ih]

theorem applyAdd_chapterTopics (st : MState) (j : Nat) (c : String) (pd : List Diagram) :
    (applyAddExercise st j c pd).chapter.topics = st.chapter.topics := by
  unfold applyAddExercise
  cases ht : st.currentTopic <;> simp [ht]

theorem applyAdd_curTopicName (st : MState) (j : Nat) (c : String) (pd : List Diagram) :
    (applyAddExercise st j c pd).currentTopic.map (fun t => t.topicName) =
      st.currentTopic.map (fun t => t.topicName) := by
  unfold applyAddExercise
  cases ht : st.currentTopic <;> simp [ht]

theorem applyAdd_curTopicSections (st : MState) (j : Nat) (c : String) (pd : List Diagram) :
    (applyAddExercise st j c pd).currentTopic.map (fun t => t.sections) =
      st.currentTopic.map (fun t => t.sections) := by
  unfold applyAddExercise
  cases ht : st.currentTopic <;> simp [ht]

theorem applyAdd_storeExercise (st : MState) (j : Nat) (c : String) (pd : List Diagram) :
    (applyAddExercise st j c pd).store.map (fun e => e.exercise) =
      st.store.map (fun e => e.exercise) := by
  unfold applyAddExercise
  cases ht : st.currentTopic <;> simp only [ht] <;>
    exact listModify_map
      (fun e : ExerciseR =>
        { e with content := c
                 imageUrls := e.imageUrls ++ pd.map (fun d : Diagram => ImgRef.mk d.imagePath) })
      (fun e => e.exercise) (fun a => rfl) j st.store

theorem applyAdd_contentBlocks (st : MState) (j : Nat) (c : String) (pd : List Diagram) :
    (applyAddExercise st j c pd).contentBlocks = st.contentBlocks := by
  unfold applyAddExercise
  cases ht : st.currentTopic <;> simp [ht]

theorem TopicsAcc_applyAddExercise (st : MState) (j : Nat) (c : String) (pd : List Diagram) :
    TopicsAcc (applyAddExercise st j c pd) = TopicsAcc st := by
  unfold TopicsAcc
  rw [applyAdd_chapterTopics, applyAdd_curTopicName]

theorem ExNames_applyAddExercise (st : MState) (j : Nat) (c : String) (pd : List Diagram) :
    ExNames (applyAddExercise st j c pd) = ExNames st :=
  applyAdd_storeExercise st j c pd

theorem TopicsAcc_topicStep (st : MState) (pd : List Diagram) (g : String) :
    TopicsAcc (topicStep st pd g) = TopicsAcc st ++ [g] := by
  unfold TopicsAcc topicStep
  cases ht : st.currentTopic with
  | none => simp [ht]
  | some t =>
    by_cases hb : st.contentBlocks = [] <;> simp [ht, hb, addSection]

theorem ExNames_topicStep (st : MState) (pd : List Diagram) (g : String) :
    ExNames (topicStep st pd g) = ExNames st := by
  unfold ExNames topicStep
  cases ht : st.currentTopic with
  | none => simp [ht]
  | some t =>
    by_cases hb : st.contentBlocks = [] <;> simp [ht, hb]

theorem TopicsAcc_exerciseHeadStep (st : MState) (pd : List Diagram) (sl : String) :
    TopicsAcc (exerciseHeadStep st pd sl) = TopicsAcc st := by
  unfold exerciseHeadStep
  cases he : st.currentExercise with
  | none => simp [he, TopicsAcc]
  | some j =>
    by_cases hb : st.contentBlocks = []
    · simp [he, hb, TopicsAcc]
    · simp only [he, hb, if_neg, TopicsAcc]
      simp [applyAdd_chapterTopics, applyAdd_curTopicName]

theorem ExNames_exerciseHeadStep (st : MState) (pd : List Diagram) (sl : String) :
    ExNames (exerciseHeadStep st pd sl) = ExNames st ++ [sl] := by
  unfold exerciseHeadStep
  cases he : st.currentExercise with
  | none => simp [he, ExNames]
  | some j =>
    by_cases hb : st.contentBlocks = []
    · simp [he, hb, ExNames]
    · simp only [he, hb, if_neg, ExNames]
      simp [applyAdd_storeExercise]

theorem TopicsAcc_exerciseFlushStep (st : MState) (pd : List Diagram) (blk : List String) :
    TopicsAcc (exerciseFlushStep st pd blk) = TopicsAcc st := by
  unfold exerciseFlushStep
  cases he : st.currentExercise with
  | none => simp [he, TopicsAcc]
  | some j =>
    by_cases hb : st.contentBlocks ++ blk = []
    · simp [he, hb, TopicsAcc]
    · simp only [he, hb, if_neg, TopicsAcc]
      simp [applyAdd_chapterTopics, applyAdd_curTopicName]

theorem ExNames_exerciseFlushStep (st : MState) (pd : List Diagram) (blk : List String) :
    ExNames (exerciseFlushStep st pd blk) = ExNames st := by
  unfold exerciseFlushStep
  cases he : st.currentExercise with
  | none => simp [he, ExNames]
  | some j =>
    by_cases hb : st.contentBlocks ++ blk = []
    · simp [he, hb, ExNames]
    · simp only [he, hb, if_neg, ExNames]
      simp [applyAdd_storeExercise]

theorem TopicsAcc_endPageFlush (st : MState) (pd : List Diagram) :
    TopicsAcc (endPageFlush st pd) = TopicsAcc st := by
  unfold endPageFlush
  by_cases hb : st.contentBlocks = []
  · simp [hb]
  · cases he : st.currentExercise with
    | some j =>
      simp only [hb, he, if_neg, TopicsAcc]
      simp [applyAdd_chapterTopics, applyAdd_curTopicName]
    | none =>
      cases ht : st.currentTopic with
      | some t => simp [hb, he, ht, TopicsAcc, addSection]
      | none => simp [hb, he, ht, TopicsAcc]

theorem ExNames_endPageFlush (st : MState) (pd : List Diagram) :
    ExNames (endPageFlush st pd) = ExNames st := by
  unfold endPageFlush
  by_cases hb : st.contentBlocks = []
  · simp [hb]
  · cases he : st.currentExercise with
    | some j =>
      simp only [hb, he, if_neg, ExNames]
      simp [applyAdd_storeExercise]
    | none =>
      cases ht : st.currentTopic with
      | some t => simp [hb, he, ht, ExNames]
      | none => simp [hb, he, ht, ExNames]

/-! ## The line loop preserves the accumulators -/

theorem topicMatch_empty : topicMatch "" = none := rfl

theorem strStartsWith_empty : strStartsWith "" "EXERCISE" = false := rfl

theorem topicMatch_CIRCLES : topicMatch "CIRCLES" = none := by decide

theorem strStartsWith_CIRCLES : strStartsWith "CIRCLES" "EXERCISE" = false := by decide

/-- Lines consumed by the inner collection loop are neither topic nor
exercise headings, so they contribute nothing to either heading list. -/
theorem filterMap_topicMatch_collect (ls : List String) :
    ((collectBlk ls).2.map pyStrip).filterMap topicMatch =
      ((ls.map pyStrip).filterMap topicMatch) ∧
    ((collectBlk ls).2.map pyStrip).filter (fun s => strStartsWith s "EXERCISE") =
      ((ls.map pyStrip).filter (fun s => strStartsWith s "EXERCISE")) := by
  obtain ⟨pre, hpre, -, hall⟩ := collectBlk_spec ls
  constructor
  · conv_rhs => rw [hpre]
    rw [List.map_append, List.filterMap_append]
    have : (pre.map pyStrip).filterMap topicMatch = [] := by
      rw [List.filterMap_eq_nil_iff]
      intro s hs
      obtain ⟨x, hx, rfl⟩ := List.mem_map.mp hs
      exact topicMatch_none_of_testFalse (hall x hx).2
    rw [this, List.nil_append]
  · conv_rhs => rw [hpre]
    rw [List.map_append, List.filter_append]
    have : (pre.map pyStrip).filter (fun s => strStartsWith s "EXERCISE") = [] := by
      rw [List.filter_eq_nil_iff]
      intro s hs
      obtain ⟨x, hx, rfl⟩ := List.mem_map.mp hs
      simp [(hall x hx).1]
    rw [this, List.nil_append]

/-- The heading accumulators after the line loop: every topic-heading
line appends its captured name, every `EXERCISE` line appends its
stripped heading, and nothing else touches either list. -/
theorem processLinesF_acc (pd : List Diagram) (pnum : Nat) :
    ∀ (fuel : Nat) (ls : List String) (st : MState), ls.length ≤ fuel →
      TopicsAcc (processLinesF pd pnum fuel st ls) =
        TopicsAcc st ++ (ls.map pyStrip).filterMap topicMatch ∧
      ExNames (processLinesF pd pnum fuel st ls) =
        ExNames st ++ (ls.map pyStrip).filter (fun s => strStartsWith s "EXERCISE") := by
  intro fuel
  induction fuel with
  | zero =>
    intro ls st h
    have : ls = [] := List.eq_nil_of_length_eq_zero (Nat.le_zero.mp h)
    subst this
    simp [processLinesF]
  | succ fuel ih =>
    intro ls st h
    match ls with
    | [] => simp [processLinesF]
    | l :: ls' =>
      have hlen : ls'.length ≤ fuel := by
        simpa [Nat.succ_le_succ_iff] using h
      simp only [processLinesF]
      by_cases h1 : pyStrip l = ""
      · rw [if_pos h1]
        obtain ⟨ih1, ih2⟩ := ih ls' st hlen
        rw [ih1, ih2]
        simp [h1, topicMatch_empty, strStartsWith_empty]
      · rw [if_neg h1]
        by_cases h2 : pnum = 0 ∧ pyStrip l = "CIRCLES"
        · rw [if_pos h2]
          obtain ⟨ih1, ih2⟩ := ih ls' _ hlen
          rw [ih1, ih2]
          constructor
          · simp only [TopicsAcc]
            simp [h2.2, topicMatch_CIRCLES]
          · simp only [ExNames]
            simp [h2.2, strStartsWith_CIRCLES]
        · rw [if_neg h2]
          cases hm : topicMatch (pyStrip l) with
          | some g =>
            obtain ⟨ih1, ih2⟩ := ih ls' (topicStep st pd g) hlen
            rw [ih1, ih2, TopicsAcc_topicStep, ExNames_topicStep]
            constructor
            · simp [hm, List.append_assoc]
            · simp [topicMatch_none_of_exercise, hm]
              rw [List.filter_cons]
              have : strStartsWith (pyStrip l) "EXERCISE" = false := by
                cases hx : strStartsWith (pyStrip l) "EXERCISE"
                · rfl
                · rw [topicMatch_none_of_exercise hx] at hm; cases hm
              simp [this]
          | none =>
            by_cases h3 : strStartsWith (pyStrip l) "EXERCISE" = true
            · rw [if_pos h3]
              obtain ⟨ih1, ih2⟩ := ih ls' (exerciseHeadStep st pd (pyStrip l)) hlen
              rw [ih1, ih2, TopicsAcc_exerciseHeadStep, ExNames_exerciseHeadStep]
              constructor
              · simp [hm]
              · simp [h3, List.append_assoc, hm]
            · rw [if_neg h3]
              by_cases h4 : st.exerciseSection
              · rw [if_pos h4]
                have hrest : (collectBlk ls').2.length ≤ fuel :=
                  le_trans (collectBlk_rest_len ls') hlen
                obtain ⟨ih1, ih2⟩ := ih (collectBlk ls').2 _ hrest
                rw [ih1, ih2, TopicsAcc_exerciseFlushStep, ExNames_exerciseFlushStep]
                obtain ⟨hc1, hc2⟩ := filterMap_topicMatch_collect ls'
                rw [hc1, hc2]
                constructor
                · simp [hm]
                · simp [hm]
                  rw [List.filter_cons]
                  simp [Bool.eq_false_iff.mpr h3]
              · rw [if_neg h4]
                obtain ⟨ih1, ih2⟩ := ih ls' _ hlen
                rw [ih1, ih2]
                constructor
                · simp only [TopicsAcc]
                  simp [hm]
                · simp only [ExNames]
                  simp
                  rw [List.filter_cons]
                  simp [Bool.eq_false_iff.mpr h3]

/-! ## Section contents never contain a topic-heading line -/

theorem GoodTopic_addSection {t : TopicR} {blocks : List String} (pd : List Diagram)
    (ht : GoodTopic t) (hb : ∀ b ∈ blocks, topicMatch b = none) :
    GoodTopic (addSection t (String.intercalate "\n" blocks) pd) := by
  intro s hs
  unfold addSection at hs
  simp only [List.mem_append, List.mem_singleton] at hs
  rcases hs with hs | rfl
  · exact ht s hs
  · exact ⟨blocks, rfl, hb⟩

theorem GoodState_applyAddExercise {st : MState} (j : Nat) (c : String) (pd : List Diagram)
    (h : GoodState st) : GoodState (applyAddExercise st j c pd) := by
  obtain ⟨h1, h2, h3⟩ := h
  refine ⟨?_, ?_, ?_⟩
  · rw [applyAdd_contentBlocks]; exact h1
  · rw [applyAdd_chapterTopics]; exact h2
  · intro t ht
    have := applyAdd_curTopicSections st j c pd
    cases hcur : st.currentTopic with
    | none =>
      rw [hcur] at this
      rw [ht] at this
      simp at this
    | some t0 =>
      rw [hcur] at this
      rw [ht] at this
      simp at this
      intro s hs
      rw [this] at hs
      exact h3 t0 hcur s hs

theorem GoodState_topicStep {st : MState} (pd : List Diagram) (g : String)
    (h : GoodState st) : GoodState (topicStep st pd g) := by
  obtain ⟨h1, h2, h3⟩ := h
  unfold topicStep
  cases hcur : st.currentTopic with
  | none =>
    dsimp only
    refine ⟨h1, h2, ?_⟩
    intro t ht
    obtain rfl := (Option.some.inj ht).symm
    intro s hs
    exact absurd hs (List.not_mem_nil s)
  | some t0 =>
    dsimp only
    by_cases hb : st.contentBlocks = []
    · rw [if_pos hb]
      refine ⟨h1, ?_, ?_⟩
      · intro t ht
        simp only [List.mem_append, List.mem_singleton] at ht
        rcases ht with ht | rfl
        · exact h2 t ht
        · exact h3 _ hcur
      · intro t ht
        obtain rfl := (Option.some.inj ht).symm
        intro s hs
        exact absurd hs (List.not_mem_nil s)
    · rw [if_neg hb]
      refine ⟨fun b hb' => absurd hb' (List.not_mem_nil b), ?_, ?_⟩
      · intro t ht
        simp only [List.mem_append, List.mem_singleton] at ht
        rcases ht with ht | rfl
        · exact h2 t ht
        · exact GoodTopic_addSection pd (h3 _ hcur) h1
      · intro t ht
        obtain rfl := (Option.some.inj ht).symm
        intro s hs
        exact absurd hs (List.not_mem_nil s)

theorem GoodState_exerciseHeadStep {st : MState} (pd : List Diagram) (sl : String)
    (h : GoodState st) : GoodState (exerciseHeadStep st pd sl) := by
  obtain ⟨h1, h2, h3⟩ := h
  unfold exerciseHeadStep
  cases he : st.currentExercise with
  | none => exact ⟨h1, h2, h3⟩
  | some j =>
    dsimp only
    by_cases hb : st.contentBlocks = []
    · rw [if_pos hb]
      exact ⟨h1, h2, h3⟩
    · rw [if_neg hb]
      have hg : GoodState (applyAddExercise
          { st with exerciseSection := true, currentExercise := some j } j
          (String.intercalate "\n" st.contentBlocks) pd) :=
        GoodState_applyAddExercise j _ pd ⟨h1, h2, h3⟩
      obtain ⟨-, hg2, hg3⟩ := hg
      exact ⟨fun b hb' => absurd hb' (List.not_mem_nil b), hg2, hg3⟩

theorem GoodState_exerciseFlushStep {st : MState} (pd : List Diagram) (blk : List String)
    (h : GoodState st) (hblk : ∀ b ∈ blk, topicMatch b = none) :
    GoodState (exerciseFlushStep st pd blk) := by
  obtain ⟨h1, h2, h3⟩ := h
  have hall : ∀ b ∈ st.contentBlocks ++ blk, topicMatch b = none := by
    intro b hb
    rcases List.mem_append.mp hb with hb | hb
    · exact h1 b hb
    · exact hblk b hb
  unfold exerciseFlushStep
  cases he : st.currentExercise with
  | none => exact ⟨hall, h2, h3⟩
  | some j =>
    dsimp only
    by_cases hb : st.contentBlocks ++ blk = []
    · rw [if_pos hb]
      exact ⟨hall, h2, h3⟩
    · rw [if_neg hb]
      have hg : GoodState (applyAddExercise
          { st with contentBlocks := st.contentBlocks ++ blk, currentExercise := some j } j
          (String.intercalate "\n" (st.contentBlocks ++ blk)) pd) :=
        GoodState_applyAddExercise j _ pd ⟨hall, h2, h3⟩
      obtain ⟨-, hg2, hg3⟩ := hg
      exact ⟨fun b hb' => absurd hb' (List.not_mem_nil b), hg2, hg3⟩

theorem GoodState_endPageFlush {st : MState} (pd : List Diagram)
    (h : GoodState st) : GoodState (endPageFlush st pd) := by
  obtain ⟨h1, h2, h3⟩ := h
  unfold endPageFlush
  dsimp only
  by_cases hb : st.contentBlocks = []
  · rw [if_pos hb]
    exact ⟨h1, h2, h3⟩
  · rw [if_neg hb]
    cases he : st.currentExercise with
    | some j =>
      have hg : GoodState (applyAddExercise st j
          (String.intercalate "\n" st.contentBlocks) pd) :=
        GoodState_applyAddExercise j _ pd ⟨h1, h2, h3⟩
      obtain ⟨-, hg2, hg3⟩ := hg
      exact ⟨fun b hb' => absurd hb' (List.not_mem_nil b), hg2, hg3⟩
    | none =>
      cases ht : st.currentTopic with
      | some t0 =>
        refine ⟨fun b hb' => absurd hb' (List.not_mem_nil b), h2, ?_⟩
        intro t ht'
        obtain rfl := (Option.some.inj ht').symm
        exact GoodTopic_addSection pd (h3 t0 ht) h1
      | none =>
        exact ⟨fun b hb' => absurd hb' (List.not_mem_nil b), h2, h3⟩

theorem GoodState_contentAppend {st : MState} {sl : String}
    (h : GoodState st) (hsl : topicMatch sl = none) :
    GoodState { st with contentBlocks := st.contentBlocks ++ [sl] } := by
  obtain ⟨h1, h2, h3⟩ := h
  refine ⟨?_, h2, h3⟩
  intro b hb
  rcases List.mem_append.mp hb with hb | hb
  · exact h1 b hb
  · rw [List.mem_singleton.mp hb]
    exact hsl

/-- The whole line loop preserves the invariant. -/
theorem GoodState_processLinesF (pd : List Diagram) (pnum : Nat) :
    ∀ (fuel : Nat) (ls : List String) (st : MState), ls.length ≤ fuel →
      GoodState st → GoodState (processLinesF pd pnum fuel st ls) := by
  intro fuel
  induction fuel with
  | zero =>
    intro ls st h hst
    have : ls = [] := List.eq_nil_of_length_eq_zero (Nat.le_zero.mp h)
    subst this
    simpa [processLinesF] using hst
  | succ fuel ih =>
    intro ls st h hst
    match ls with
    | [] => simpa [processLinesF] using hst
    | l :: ls' =>
      have hlen : ls'.length ≤ fuel := by
        simpa [Nat.succ_le_succ_iff] using h
      simp only [processLinesF]
      by_cases h1 : pyStrip l = ""
      · rw [if_pos h1]
        exact ih ls' st hlen hst
      · rw [if_neg h1]
        by_cases h2 : pnum = 0 ∧ pyStrip l = "CIRCLES"
        · rw [if_pos h2]
          refine ih ls' _ hlen ?_
          obtain ⟨hs1, hs2, hs3⟩ := hst
          exact ⟨hs1, hs2, hs3⟩
        · rw [if_neg h2]
          cases hm : topicMatch (pyStrip l) with
          | some g => exact ih ls' _ hlen (GoodState_topicStep pd g hst)
          | none =>
            by_cases h3 : strStartsWith (pyStrip l) "EXERCISE" = true
            · rw [if_pos h3]
              exact ih ls' _ hlen (GoodState_exerciseHeadStep pd (pyStrip l) hst)
            · rw [if_neg h3]
              by_cases h4 : st.exerciseSection
              · rw [if_pos h4]
                have hrest : (collectBlk ls').2.length ≤ fuel :=
                  le_trans (collectBlk_rest_len ls') hlen
                refine ih _ _ hrest (GoodState_exerciseFlushStep pd _ hst ?_)
                intro b hb
                rcases List.mem_cons.mp hb with rfl | hb
                · exact hm
                · obtain ⟨pre, -, hblk, hall⟩ := collectBlk_spec ls'
                  rw [hblk] at hb
                  obtain ⟨x, hx, rfl⟩ := List.mem_map.mp (List.mem_of_mem_filter hb)
                  exact topicMatch_none_of_testFalse (hall x hx).2
              · rw [if_neg h4]
                exact ih ls' _ hlen (GoodState_contentAppend hst hm)

/-! ## Page-loop level lemmas -/

theorem processPage_acc (d : List Diagram) (n : Nat) (st : MState) (pg : List String) :
    TopicsAcc (processPage d n st pg) =
      TopicsAcc st ++ (pg.map pyStrip).filterMap topicMatch ∧
    ExNames (processPage d n st pg) =
      ExNames st ++ (pg.map pyStrip).filter (fun s => strStartsWith s "EXERCISE") := by
  obtain ⟨h1, h2⟩ := processLinesF_acc (pageDiagList d n) n pg.length pg st (le_refl _)
  unfold processPage processLines
  rw [TopicsAcc_endPageFlush, ExNames_endPageFlush, h1, h2]
  exact ⟨rfl, rfl⟩

theorem GoodState_processPage (d : List Diagram) (n : Nat) {st : MState} (pg : List String)
    (h : GoodState st) : GoodState (processPage d n st pg) :=
  GoodState_endPageFlush _
    (GoodState_processLinesF (pageDiagList d n) n pg.length pg st (le_refl _) h)

theorem runPages_acc (d : List Diagram) :
    ∀ (pgs : List (List String)) (n : Nat) (st : MState),
      TopicsAcc (runPages d n st pgs) =
        TopicsAcc st ++ (pgs.flatten.map pyStrip).filterMap topicMatch ∧
      ExNames (runPages d n st pgs) =
        ExNames st ++ (pgs.flatten.map pyStrip).filter (fun s => strStartsWith s "EXERCISE") := by
  intro pgs
  induction pgs with
  | nil => intro n st; simp [runPages]
  | cons pg pgs ih =>
    intro n st
    simp only [runPages]
    obtain ⟨ih1, ih2⟩ := ih (n + 1) (processPage d n st pg)
    obtain ⟨hp1, hp2⟩ := processPage_acc d n st pg
    rw [ih1, ih2, hp1, hp2]
    simp [List.filterMap_append, List.filter_append, List.append_assoc]

theorem GoodState_runPages (d : List Diagram) :
    ∀ (pgs : List (List String)) (n : Nat) {st : MState},
      GoodState st → GoodState (runPages d n st pgs) := by
  intro pgs
  induction pgs with
  | nil => intro n st h; exact h
  | cons pg pgs ih =>
    intro n st h
    exact ih (n + 1) (GoodState_processPage d n pg h)

theorem GoodState_initState : GoodState initState := by
  refine ⟨?_, ?_, ?_⟩ <;> intro x hx <;> simp [initState, initChapter] at hx

theorem TopicsAcc_initState : TopicsAcc initState = [] := rfl

theorem ExNames_initState : ExNames initState = [] := rfl

/-- Claim C1: every trimmed, non-empty input line matching the pattern
`^\d+\.\d+\s+(.+)$` opens exactly one new Topic, named by the captured
free text (the topic-name list of the output equals, in order, the list
of captured groups over all lines of all pages), and such a line is
never one of the content lines joined into any Section's content —
including lines reached inside an exercise block. -/
theorem topic_heading_opens_one_topic (pdfName : String) (diagrams : List Diagram)
    (pages : List (List String)) :
    (extractStructure pdfName diagrams pages).chapter.topics.map (fun t => t.topicName) =
      (pages.flatten.map pyStrip).filterMap topicMatch ∧
    ∀ t ∈ (extractStructure pdfName diagrams pages).chapter.topics, ∀ s ∈ t.sections,
      ∃ blocks, s.content = String.intercalate "\n" blocks ∧
        ∀ b ∈ blocks, topicMatch b = none := by
  obtain ⟨hacc, -⟩ := runPages_acc diagrams pages 0 initState
  rw [TopicsAcc_initState, List.nil_append] at hacc
  have hgood := GoodState_runPages diagrams pages 0 GoodState_initState
  constructor
  · unfold extractStructure
    dsimp only
    cases hcur : (runPages diagrams 0 initState pages).currentTopic with
    | none =>
      dsimp only
      unfold TopicsAcc at hacc
      rw [hcur] at hacc
      simpa using hacc
    | some t =>
      dsimp only
      unfold TopicsAcc at hacc
      rw [hcur] at hacc
      simpa using hacc
  · intro t ht s hs
    obtain ⟨-, hg2, hg3⟩ := hgood
    unfold extractStructure at ht
    dsimp only at ht
    cases hcur : (runPages diagrams 0 initState pages).currentTopic with
    | none =>
      rw [hcur] at ht
      dsimp only at ht
      exact hg2 t ht s hs
    | some t0 =>
      rw [hcur] at ht
      dsimp only at ht
      rcases List.mem_append.mp ht with ht | ht
      · exact hg2 t ht s hs
      · rw [List.mem_singleton.mp ht] at hs
        exact hg3 t0 hcur s hs

/-- Witness for C1 at a concrete input: one page `["9.1 T", "c"]`
yields the topic `T` with a single good section. -/
theorem topic_heading_opens_one_topic_witness :
    ∃ blocks, ("c" : String) = String.intercalate "\n" blocks ∧
      ∀ b ∈ blocks, topicMatch b = none := by
  have h := (topic_heading_opens_one_topic "bk" [] [["9.1 T", "c"]]).2
  have ht : (⟨"T", [], [⟨"Section 1", "c", []⟩], []⟩ : TopicR) ∈
      (extractStructure "bk" [] [["9.1 T", "c"]]).chapter.topics := by decide
  have hs : (⟨"Section 1", "c", []⟩ : SectionR) ∈
      (⟨"T", [], [⟨"Section 1", "c", []⟩], []⟩ : TopicR).sections := by decide
  exact h _ ht _ hs

/-! ## Exercise-content collection on a clean block -/

theorem processLinesF_nil (pd : List Diagram) (pnum : Nat) (fuel : Nat) (st : MState) :
    processLinesF pd pnum fuel st [] = st := by
  cases fuel <;> rfl

theorem collectBlk_clean (cs : List String)
    (h : ∀ c ∈ cs, strStartsWith (pyStrip c) "EXERCISE" = false ∧
      topicHeadTest (pyStrip c) = false) :
    collectBlk cs = ((cs.map pyStrip).filter (fun s => !(s == "")), []) := by
  induction cs with
  | nil => rfl
  | cons c cs ih =>
    have hc := h c (List.mem_cons_self c cs)
    have ih' := ih (fun x hx => h x (List.mem_cons_of_mem c hx))
    simp only [collectBlk, hc.1, hc.2, Bool.or_self, if_neg, Bool.false_eq_true, ite_false]
    rw [ih']
    simp only [List.map_cons, List.filter_cons]
    by_cases he : (pyStrip c == "") = true
    · simp [he]
    · simp [Bool.eq_false_iff.mpr he]

/-- Processing a page tail of clean content lines (no headings, no
chapter title) while inside an exercise block simply flushes all the
non-empty stripped lines, in order, into the current exercise. -/
theorem processLinesF_cleanExercise (pd : List Diagram) :
    ∀ (fuel : Nat) (cs : List String) (st : MState), cs.length ≤ fuel →
      st.exerciseSection = true →
      (∀ c ∈ cs, strStartsWith (pyStrip c) "EXERCISE" = false ∧
        topicHeadTest (pyStrip c) = false ∧ ¬ pyStrip c = "CIRCLES") →
      processLinesF pd 0 fuel st cs =
        (if (cs.map pyStrip).filter (fun s => !(s == "")) = [] then st
         else exerciseFlushStep st pd ((cs.map pyStrip).filter (fun s => !(s == "")))) := by
  intro fuel
  induction fuel with
  | zero =>
    intro cs st h hex hc
    have : cs = [] := List.eq_nil_of_length_eq_zero (Nat.le_zero.mp h)
    subst this
    simp [processLinesF]
  | succ fuel ih =>
    intro cs st h hex hc
    match cs with
    | [] => simp [processLinesF_nil]
    | c :: cs' =>
      have hlen : cs'.length ≤ fuel := by
        simpa [Nat.succ_le_succ_iff] using h
      have hch := hc c (List.mem_cons_self c cs')
      have hc' : ∀ x ∈ cs', strStartsWith (pyStrip x) "EXERCISE" = false ∧
          topicHeadTest (pyStrip x) = false ∧ ¬ pyStrip x = "CIRCLES" :=
        fun x hx => hc x (List.mem_cons_of_mem c hx)
      simp only [processLinesF]
      by_cases h1 : pyStrip c = ""
      · rw [if_pos h1]
        rw [ih cs' st hlen hex hc']
        simp [h1]
      · rw [if_neg h1]
        rw [if_neg (by
          intro hand
          exact hch.2.2 hand.2)]
        rw [topicMatch_none_of_testFalse hch.2.1]
        rw [if_neg (by simp [hch.1])]
        rw [if_pos hex]
        rw [collectBlk_clean cs' (fun x hx => ⟨(hc' x hx).1, (hc' x hx).2.1⟩)]
        rw [processLinesF_nil]
        have hfc : (List.map pyStrip (c :: cs')).filter (fun s => !(s == "")) =
            pyStrip c :: (cs'.map pyStrip).filter (fun s => !(s == "")) := by
          simp only [List.map_cons, List.filter_cons]
          rw [if_pos (by simp [h1])]
        rw [hfc]
        rw [if_neg (by simp)]

theorem extractStructure_store (pdfName : String) (d : List Diagram)
    (pages : List (List String)) :
    (extractStructure pdfName d pages).store = (runPages d 0 initState pages).store := by
  unfold extractStructure
  dsimp only

/-- Claim C2 (amended): every line whose stripped form starts with
`EXERCISE` allocates exactly one new Exercise capturing the stripped
heading line (first conjunct: the store's heading list equals, in
order, the `EXERCISE`-prefixed stripped lines of the input); and for a
page consisting of such a heading followed only by plain content lines,
the non-empty stripped content lines are newline-joined, in order, into
that exercise's `content`, which is flushed once into the chapter's
exercise list (second conjunct).  Content split across a page boundary
is *not* accumulated: each later flush overwrites `content` (see the
counterexample and C10). -/
theorem exercise_heading_spec :
    (∀ (pdfName : String) (diagrams : List Diagram) (pages : List (List String)),
      (extractStructure pdfName diagrams pages).store.map (fun e => e.exercise) =
        (pages.flatten.map pyStrip).filter (fun s => strStartsWith s "EXERCISE")) ∧
    (∀ (pdfName : String) (diagrams : List Diagram) (hd : String) (cs : List String),
      strStartsWith (pyStrip hd) "EXERCISE" = true →
      (∀ c ∈ cs, strStartsWith (pyStrip c) "EXERCISE" = false ∧
        topicHeadTest (pyStrip c) = false ∧ ¬ pyStrip c = "CIRCLES") →
      (cs.map pyStrip).filter (fun s => !(s == "")) ≠ [] →
      (extractStructure pdfName diagrams [hd :: cs]).store =
        [{ exercise := pyStrip hd
           content := String.intercalate "\n" ((cs.map pyStrip).filter (fun s => !(s == "")))
           imageUrls := (diagrams.filter (fun d => d.page == 0 + 1)).map
             (fun d => ImgRef.mk d.imagePath) }] ∧
      (extractStructure pdfName diagrams [hd :: cs]).chapter.exercises = [0]) := by
  constructor
  · intro pdfName diagrams pages
    obtain ⟨-, hacc⟩ := runPages_acc diagrams pages 0 initState
    rw [ExNames_initState, List.nil_append] at hacc
    unfold ExNames at hacc
    rw [extractStructure_store]
    exact hacc
  · intro pdfName diagrams hd cs hEx hclean hne
    have e3 : processLinesF (pageDiagList diagrams 0) 0 (hd :: cs).length initState (hd :: cs) =
        processLinesF (pageDiagList diagrams 0) 0 cs.length
          (exerciseHeadStep initState (pageDiagList diagrams 0) (pyStrip hd)) cs := by
      simp only [List.length_cons, processLinesF]
      rw [if_neg (ne_empty_of_exercise hEx)]
      rw [if_neg (by
        intro hand
        rw [hand.2] at hEx
        rw [strStartsWith_CIRCLES] at hEx
        cases hEx)]
      rw [topicMatch_none_of_exercise hEx]
      rw [if_pos hEx]
    have e4 : exerciseHeadStep initState (pageDiagList diagrams 0) (pyStrip hd) =
        { chapter := initChapter, currentTopic := none, currentExercise := some 0
          exerciseSection := true, contentBlocks := []
          store := [{ exercise := pyStrip hd, content := "", imageUrls := [] }] } := rfl
    have e5 := processLinesF_cleanExercise (pageDiagList diagrams 0) cs.length cs
        { chapter := initChapter, currentTopic := none, currentExercise := some 0
          exerciseSection := true, contentBlocks := []
          store := [{ exercise := pyStrip hd, content := "", imageUrls := [] }] }
        (le_refl _) rfl hclean
    rw [if_neg hne] at e5
    have e6 : exerciseFlushStep
        { chapter := initChapter, currentTopic := none, currentExercise := some 0
          exerciseSection := true, contentBlocks := []
          store := [{ exercise := pyStrip hd, content := "", imageUrls := [] }] }
        (pageDiagList diagrams 0) ((cs.map pyStrip).filter (fun s => !(s == ""))) =
        { chapter := { chapterName := "CIRCLES", topics := [], exercises := [0] }
          currentTopic := none, currentExercise := some 0
          exerciseSection := false, contentBlocks := []
          store := [{ exercise := pyStrip hd
                      content := String.intercalate "\n"
                        ((cs.map pyStrip).filter (fun s => !(s == "")))
                      imageUrls := (pageDiagList diagrams 0).map
                        (fun d => ImgRef.mk d.imagePath) }] } := by
      unfold exerciseFlushStep applyAddExercise
      dsimp only [List.nil_append]
      rw [if_neg hne]
      rfl
    have hfin : runPages diagrams 0 initState [hd :: cs] =
        { chapter := { chapterName := "CIRCLES", topics := [], exercises := [0] }
          currentTopic := none, currentExercise := some 0
          exerciseSection := false, contentBlocks := []
          store := [{ exercise := pyStrip hd
                      content := String.intercalate "\n"
                        ((cs.map pyStrip).filter (fun s => !(s == "")))
                      imageUrls := (pageDiagList diagrams 0).map
                        (fun d => ImgRef.mk d.imagePath) }] } := by
      show endPageFlush (processLinesF (pageDiagList diagrams 0) 0 (hd :: cs).length
        initState (hd :: cs)) (pageDiagList diagrams 0) = _
      rw [e3, e4, e5, e6]
      rfl
    constructor
    · rw [extractStructure_store, hfin]
      rfl
    · unfold extractStructure
      rw [hfin]

/-- Counterexample to C2 as stated: the exercise content lines `"a"`
(page 1) and `"b"` (page 2) span a page boundary; the claim predicts a
single Exercise with content `"a\nb"`, but the code flushes twice,
overwriting `content` with only the second block and appending the same
exercise dict to the chapter's list twice. -/
theorem exercise_page_boundary_cex :
    (extractStructure "bk" [] [["EXERCISE 1", "a"], ["b"]]).store.map (fun e => e.content) = ["b"] ∧
    (extractStructure "bk" [] [["EXERCISE 1", "a"], ["b"]]).chapter.exercises = [0, 0] ∧
    ¬ ("b" : String) = "a" ++ "\n" ++ "b" := by
  refine ⟨by decide, by decide, by decide⟩

/-- Witness for C2 (amended) at a concrete input. -/
theorem exercise_heading_spec_witness :
    (extractStructure "w" [] [["EXERCISE 9.1", "q1", "", "q2"]]).store =
      [{ exercise := "EXERCISE 9.1"
         content := String.intercalate "\n" ["q1", "q2"]
         imageUrls := [] }] ∧
    (extractStructure "w" [] [["EXERCISE 9.1", "q1", "", "q2"]]).chapter.exercises = [0] := by
  have h := exercise_heading_spec.2 "w" [] "EXERCISE 9.1" ["q1", "", "q2"]
    (by decide) (by decide) (by decide)
  exact h

/-- Claim C10: a second flush while the same exercise is current (here
forced by a page boundary) re-appends the same Exercise (same store
index) to the parent's list and overwrites its `content` with only the
most recent block, losing the earlier one.  On
`[["EXERCISE 2", "x"], ["y"]]` the chapter's exercise list holds index
0 twice, and the single store entry's content is `"y"`, not the
accumulation `"x\ny"`. -/
theorem exercise_realias_overwrites_content :
    (extractStructure "bk" [] [["EXERCISE 2", "x"], ["y"]]).chapter.exercises = [0, 0] ∧
    (extractStructure "bk" [] [["EXERCISE 2", "x"], ["y"]]).store.map (fun e => e.content) = ["y"] ∧
    ¬ (extractStructure "bk" [] [["EXERCISE 2", "x"], ["y"]]).store.map (fun e => e.content) =
        ["x" ++ "\n" ++ "y"] := by
  refine ⟨by decide, by decide, by decide⟩

/-- Counterexample to C4 as stated: on the single page
`["pre", "9.1 T", "9.2 U"]` the content line `"pre"` precedes the first
topic heading; the claim says it is flushed into the chapter and never
appears in the first Topic's sections, but the code retains the buffer
(no topic is open at the heading) and `"pre"` becomes the first Topic's
first section. -/
theorem pending_content_before_first_topic_cex :
    (extractStructure "bk" [] [["pre", "9.1 T", "9.2 U"]]).chapter.topics.map
      (fun t => t.sections.map (fun s => s.content)) = [["pre"], []] := by
  decide

/-- Claim C4 (amended): on a topic-heading match the pending content is
flushed as a new Section into the current topic and the buffer emptied
— but only when a topic is open; with no open topic the buffer is left
untouched (not flushed to the chapter), so content accumulated before
the first topic heading surfaces in the first Topic's sections (third
conjunct: concrete run where the pre-heading line `"intro"` lands in
the first topic's only section). -/
theorem topic_flush_behavior :
    (∀ (st : MState) (pd : List Diagram) (g : String) (t : TopicR),
      st.currentTopic = some t → st.contentBlocks ≠ [] →
      topicStep st pd g =
        { st with
          chapter := { st.chapter with
            topics := st.chapter.topics ++
              [addSection t (String.intercalate "\n" st.contentBlocks) pd] }
          contentBlocks := []
          currentTopic := some { topicName := g, imageUrls := [], sections := [], exercises := [] } }) ∧
    (∀ (st : MState) (pd : List Diagram) (g : String),
      st.currentTopic = none →
      topicStep st pd g =
        { st with currentTopic := some { topicName := g, imageUrls := [], sections := [], exercises := [] } }) ∧
    ((extractStructure "bk" [] [["intro", "9.1 A", "body", "9.2 B"]]).chapter.topics.map
        (fun t => t.sections.map (fun s => s.content)) = [["intro\nbody"], []] ∧
      ("intro\nbody" : String) = String.intercalate "\n" ["intro", "body"]) := by
  refine ⟨?_, ?_, by decide, by decide⟩
  · intro st pd g t ht hb
    unfold topicStep
    rw [ht]
    dsimp only
    rw [if_neg hb]
  · intro st pd g ht
    unfold topicStep
    rw [ht]

/-- Witness for C4 (amended) at concrete states. -/
theorem topic_flush_behavior_witness :
    topicStep
      { chapter := initChapter, currentTopic := some ⟨"T0", [], [], []⟩
        currentExercise := none, exerciseSection := false
        contentBlocks := ["p"], store := [] } [] "T1" =
      { chapter := { initChapter with
          topics := [addSection ⟨"T0", [], [], []⟩ (String.intercalate "\n" ["p"]) []] }
        currentTopic := some { topicName := "T1", imageUrls := [], sections := [], exercises := [] }
        currentExercise := none, exerciseSection := false
        contentBlocks := [], store := [] } ∧
    topicStep
      { chapter := initChapter, currentTopic := none
        currentExercise := none, exerciseSection := false
        contentBlocks := ["p"], store := [] } [] "T1" =
      { chapter := initChapter
        currentTopic := some { topicName := "T1", imageUrls := [], sections := [], exercises := [] }
        currentExercise := none, exerciseSection := false
        contentBlocks := ["p"], store := [] } := by
  constructor
  · have h := topic_flush_behavior.1
      { chapter := initChapter, currentTopic := some ⟨"T0", [], [], []⟩
        currentExercise := none, exerciseSection := false
        contentBlocks := ["p"], store := [] } [] "T1" ⟨"T0", [], [], []⟩ rfl (by decide)
    exact h
  · have h := topic_flush_behavior.2.1
      { chapter := initChapter, currentTopic := none
        currentExercise := none, exerciseSection := false
        contentBlocks := ["p"], store := [] } [] "T1" rfl
    exact h

theorem listModify_getElem {α : Type} (f : α → α) :
    ∀ (j : Nat) (l : List α), (listModify f j l)[j]? = (l[j]?).map f := by
  intro j l
  induction l generalizing j with
  | nil => simp [listModify]
  | cons a as ih =>
    cases j with
    | zero => simp [listModify]
    | succ n => simpa [listModify] using ih n

theorem applyAdd_store (st : MState) (j : Nat) (c : String) (pd : List Diagram) :
    (applyAddExercise st j c pd).store =
      listModify (fun e : ExerciseR =>
        { e with content := c
                 imageUrls := e.imageUrls ++ pd.map (fun d : Diagram => ImgRef.mk d.imagePath) })
        j st.store := by
  unfold applyAddExercise
  cases ht : st.currentTopic <;> simp [ht]

/-- Claim C3: flushes are page-scoped.  First conjunct: the page loop
hands every flush of page `p` exactly the diagrams whose `page` field
equals `p` (the filtered list of extractor.py line 105).  Second and
third conjuncts: `_add_section` and `_add_exercise` attach exactly the
handed diagrams, each as an `{img: imagePath}` object — a section gets
precisely the current page's diagrams, an exercise additionally keeps
those attached by its earlier flushes. -/
theorem diagram_attachment_page_scoped :
    (∀ (diagrams : List Diagram) (pnum : Nat) (st : MState) (lines : List String),
      processPage diagrams pnum st lines =
        endPageFlush
          (processLines (diagrams.filter (fun d => d.page == pnum + 1)) pnum st lines)
          (diagrams.filter (fun d => d.page == pnum + 1))) ∧
    (∀ (t : TopicR) (c : String) (pd : List Diagram),
      (addSection t c pd).sections =
        t.sections ++
          [{ sectionName := "Section " ++ toString (t.sections.length + 1)
             content := c
             imageUrls := pd.map (fun d => ImgRef.mk d.imagePath) }]) ∧
    (∀ (st : MState) (j : Nat) (c : String) (pd : List Diagram) (e : ExerciseR),
      st.store[j]? = some e →
      (applyAddExercise st j c pd).store[j]? =
        some { e with content := c
                      imageUrls := e.imageUrls ++ pd.map (fun d => ImgRef.mk d.imagePath) }) := by
  refine ⟨fun _ _ _ _ => rfl, fun _ _ _ => rfl, ?_⟩
  intro st j c pd e he
  rw [applyAdd_store, listModify_getElem, he]
  rfl

/-- Witness for C3 at a concrete state. -/
theorem diagram_attachment_page_scoped_witness :
    (applyAddExercise
      { chapter := initChapter, currentTopic := none, currentExercise := some 0
        exerciseSection := true, contentBlocks := []
        store := [{ exercise := "EXERCISE 3", content := "", imageUrls := [] }] }
      0 "body" [⟨2, 0, 0, 1, 1, "/images/bk/page_2_diagram_1.jpg"⟩]).store[0]? =
      some { exercise := "EXERCISE 3", content := "body"
             imageUrls := [⟨"/images/bk/page_2_diagram_1.jpg"⟩] } := by
  have h := diagram_attachment_page_scoped.2.2
    { chapter := initChapter, currentTopic := none, currentExercise := some 0
      exerciseSection := true, contentBlocks := []
      store := [{ exercise := "EXERCISE 3", content := "", imageUrls := [] }] }
    0 "body" [⟨2, 0, 0, 1, 1, "/images/bk/page_2_diagram_1.jpg"⟩]
    { exercise := "EXERCISE 3", content := "", imageUrls := [] } rfl
  exact h

/-! ## Extractor lemmas -/

theorem filterMap_if_eq_filter_map {α β : Type} (l : List α) (p : α → Prop)
    [DecidablePred p] (f : α → β) :
    l.filterMap (fun a => if p a then some (f a) else none) =
      (l.filter (fun a => decide (p a))).map f := by
  induction l with
  | nil => rfl
  | cons a l ih =>
    by_cases h : p a <;> simp [h, ih]

theorem mem_enumFrom_getElem {α : Type} :
    ∀ {l : List α} {n : Nat} {x : Nat × α}, x ∈ l.enumFrom n →
      n ≤ x.1 ∧ l[x.1 - n]? = some x.2 := by
  intro l
  induction l with
  | nil => intro n x hx; simp [List.enumFrom] at hx
  | cons a as ih =>
    intro n x hx
    rw [List.enumFrom_cons] at hx
    rcases List.mem_cons.mp hx with rfl | hx
    · simp
    · obtain ⟨h1, h2⟩ := ih hx
      refine ⟨le_trans (Nat.le_succ n) h1, ?_⟩
      have hk : x.1 - n = (x.1 - (n + 1)) + 1 := by omega
      rw [hk, List.getElem?_cons_succ]
      exact h2

theorem mem_enum_getElem {α : Type} {l : List α} {x : Nat × α} (h : x ∈ l.enum) :
    l[x.1]? = some x.2 := by
  have := (mem_enumFrom_getElem (l := l) (n := 0) h).2
  simpa using this

theorem snd_mem_enum {α : Type} {l : List α} {x : Nat × α} (h : x ∈ l.enum) :
    x.2 ∈ l := by
  have h2 := mem_enum_getElem h
  exact List.getElem?_mem h2

theorem pairwise_fst_lt_enumFrom {α : Type} :
    ∀ (l : List α) (n : Nat),
      List.Pairwise (fun a b : Nat × α => a.1 < b.1) (l.enumFrom n) := by
  intro l
  induction l with
  | nil => intro n; simp [List.enumFrom]
  | cons a as ih =>
    intro n
    rw [List.enumFrom_cons]
    refine List.Pairwise.cons ?_ (ih (n + 1))
    intro x hx
    have h1 := (mem_enumFrom_getElem hx).1
    omega

/-- Counterexample to C6 as stated: the claim says a contour is
discarded iff its area is strictly below 1000, so a contour of area
exactly 1000 should yield a record and a file; the code keeps only
`area > 1000`, so `boundaryRaster`'s contour yields neither. -/
theorem area_exactly_1000_discarded_cex :
    boundaryRaster.contours.map (fun c => c.area) = [1000] ∧
    ¬ ((1000 : ℚ) < 1000) ∧
    pageDiagramsFor 3 "bk" 0 boundaryRaster = [] ∧
    pageFilesFor "bk" 0 boundaryRaster = [] := by
  refine ⟨by decide, by decide, by decide, by decide⟩

/-- Claim C6 (amended): a contour is discarded iff its area is at most
1000 px² (kept iff strictly greater); the records and the written files
are exactly one per kept contour, in detection order, so a page whose
contours all have area ≤ 1000 contributes zero records and zero files,
and record and file counts always agree. -/
theorem contour_area_threshold :
    (∀ (zoom : ℚ) (outputDir : String) (pnum : Nat) (p : PageRaster),
      pageDiagramsFor zoom outputDir pnum p =
        (keptContours p).map (fun ic =>
          { page := pnum + 1
            x := (ic.2.x : ℚ) / zoom, y := (ic.2.y : ℚ) / zoom
            width := (ic.2.w : ℚ) / zoom, height := (ic.2.h : ℚ) / zoom
            imagePath := "/images/" ++ basename outputDir ++ "/"
              ++ diagramFilename (pnum + 1) (ic.1 + 1) })) ∧
    (∀ (outputDir : String) (pnum : Nat) (p : PageRaster),
      pageFilesFor outputDir pnum p =
        (keptContours p).map (fun ic =>
          joinPath outputDir (diagramFilename (pnum + 1) (ic.1 + 1)))) ∧
    (∀ (zoom : ℚ) (outputDir : String) (pnum : Nat) (p : PageRaster),
      (∀ c ∈ p.contours, c.area ≤ 1000) →
      pageDiagramsFor zoom outputDir pnum p = [] ∧ pageFilesFor outputDir pnum p = []) ∧
    (∀ (zoom : ℚ) (outputDir : String) (pnum : Nat) (p : PageRaster),
      (pageFilesFor outputDir pnum p).length = (pageDiagramsFor zoom outputDir pnum p).length) := by
  have h1 : ∀ (zoom : ℚ) (outputDir : String) (pnum : Nat) (p : PageRaster),
      pageDiagramsFor zoom outputDir pnum p =
        (keptContours p).map (fun ic =>
          { page := pnum + 1
            x := (ic.2.x : ℚ) / zoom, y := (ic.2.y : ℚ) / zoom
            width := (ic.2.w : ℚ) / zoom, height := (ic.2.h : ℚ) / zoom
            imagePath := "/images/" ++ basename outputDir ++ "/"
              ++ diagramFilename (pnum + 1) (ic.1 + 1) }) := by
    intro zoom outputDir pnum p
    unfold pageDiagramsFor keptContours
    exact filterMap_if_eq_filter_map _ _ _
  have h2 : ∀ (outputDir : String) (pnum : Nat) (p : PageRaster),
      pageFilesFor outputDir pnum p =
        (keptContours p).map (fun ic =>
          joinPath outputDir (diagramFilename (pnum + 1) (ic.1 + 1))) := by
    intro outputDir pnum p
    unfold pageFilesFor keptContours
    exact filterMap_if_eq_filter_map _ _ _
  have hkept : ∀ p : PageRaster, (∀ c ∈ p.contours, c.area ≤ 1000) → keptContours p = [] := by
    intro p hp
    unfold keptContours
    rw [List.filter_eq_nil_iff]
    intro ic hic
    have := hp ic.2 (snd_mem_enum hic)
    simp only [decide_eq_true_eq]
    exact not_lt_of_le this
  refine ⟨h1, h2, ?_, ?_⟩
  · intro zoom outputDir pnum p hp
    rw [h1, h2, hkept p hp]
    exact ⟨rfl, rfl⟩
  · intro zoom outputDir pnum p
    rw [h1, h2]
    simp

/-- Witness for C6 (amended) at a concrete input. -/
theorem contour_area_threshold_witness :
    pageDiagramsFor 3 "bw" 0 belowRaster = [] ∧ pageFilesFor "bw" 0 belowRaster = [] := by
  have h := contour_area_threshold.2.2.1 3 "bw" 0 belowRaster (by decide)
  exact h

theorem pageDiagrams_bounds (zoom : ℚ) (outputDir : String) (pnum : Nat) (p : PageRaster)
    (hz : 0 < zoom) (hwf : RasterWF zoom p) :
    ∀ d ∈ pageDiagramsFor zoom outputDir pnum p,
      d.page = pnum + 1 ∧ 0 < d.width ∧ 0 < d.height ∧ 0 ≤ d.x ∧ 0 ≤ d.y ∧
      d.x + d.width ≤ p.pageWidth ∧ d.y + d.height ≤ p.pageHeight := by
  intro d hd
  unfold pageDiagramsFor at hd
  obtain ⟨ic, hic, hd⟩ := List.mem_filterMap.mp hd
  by_cases ha : 1000 < ic.2.area
  · rw [if_pos ha] at hd
    obtain rfl := (Option.some.inj hd)
    obtain ⟨hxw, hyh, harea⟩ := hwf.2.2 ic.2 (snd_mem_enum hic)
    have hwh : (1000 : ℚ) < ((ic.2.w * ic.2.h : Nat) : ℚ) := lt_of_lt_of_le ha harea
    have hw : 0 < ic.2.w := by
      rcases Nat.eq_zero_or_pos ic.2.w with h0 | h0
      · rw [h0] at hwh; norm_num at hwh
      · exact h0
    have hh : 0 < ic.2.h := by
      rcases Nat.eq_zero_or_pos ic.2.h with h0 | h0
      · rw [h0] at hwh; norm_num at hwh
      · exact h0
    refine ⟨rfl, ?_, ?_, ?_, ?_, ?_, ?_⟩
    · exact div_pos (by exact_mod_cast hw) hz
    · exact div_pos (by exact_mod_cast hh) hz
    · exact div_nonneg (by positivity) hz.le
    · exact div_nonneg (by positivity) hz.le
    · show (ic.2.x : ℚ) / zoom + (ic.2.w : ℚ) / zoom ≤ p.pageWidth
      rw [div_add_div_same, div_le_iff₀ hz]
      calc ((ic.2.x : ℚ) + ic.2.w) ≤ (p.imgW : ℚ) := by exact_mod_cast hxw
        _ ≤ zoom * p.pageWidth := hwf.1
        _ = p.pageWidth * zoom := mul_comm _ _
    · show (ic.2.y : ℚ) / zoom + (ic.2.h : ℚ) / zoom ≤ p.pageHeight
      rw [div_add_div_same, div_le_iff₀ hz]
      calc ((ic.2.y : ℚ) + ic.2.h) ≤ (p.imgH : ℚ) := by exact_mod_cast hyh
        _ ≤ zoom * p.pageHeight := hwf.2.1
        _ = p.pageHeight * zoom := mul_comm _ _
  · rw [if_neg ha] at hd
    cases hd

/-- Claim C5: every Diagram record emitted by `extract_vector_diagrams`
has positive width and height, non-negative coordinates, and fits
inside its originating page's original (unzoomed) rectangle — under the
rasterizer/contour contract `RasterWF` (rendered dimensions at most
`zoom`× the page, bounding rectangles inside the raster, contour area
bounded by its bounding rectangle's area) and a positive zoom. -/
theorem diagram_coords_within_page (zoom : ℚ) (outputDir : String)
    (rasters : List PageRaster) (hz : 0 < zoom)
    (hwf : ∀ p ∈ rasters, RasterWF zoom p) :
    ∀ d ∈ extractVectorDiagrams zoom outputDir rasters,
      ∃ n p, rasters[n]? = some p ∧ d.page = n + 1 ∧
        0 < d.width ∧ 0 < d.height ∧ 0 ≤ d.x ∧ 0 ≤ d.y ∧
        d.x + d.width ≤ p.pageWidth ∧ d.y + d.height ≤ p.pageHeight := by
  intro d hd
  unfold extractVectorDiagrams at hd
  obtain ⟨l, hl, hdl⟩ := List.mem_flatten.mp hd
  obtain ⟨np, hnp, rfl⟩ := List.mem_map.mp hl
  obtain ⟨hpg, hb⟩ := pageDiagrams_bounds zoom outputDir np.1 np.2 hz
    (hwf np.2 (snd_mem_enum hnp)) d hdl
  exact ⟨np.1, np.2, mem_enum_getElem hnp, hpg, hb⟩

/-- Witness for C5 at a concrete raster. -/
theorem diagram_coords_within_page_witness :
    ∃ n p, ([sampleRaster] : List PageRaster)[n]? = some p ∧ sampleDiagram.page = n + 1 ∧
      0 < sampleDiagram.width ∧ 0 < sampleDiagram.height ∧ 0 ≤ sampleDiagram.x ∧
      0 ≤ sampleDiagram.y ∧ sampleDiagram.x + sampleDiagram.width ≤ p.pageWidth ∧
      sampleDiagram.y + sampleDiagram.height ≤ p.pageHeight := by
  refine diagram_coords_within_page 3 "bk" [sampleRaster] (by norm_num) ?_
    sampleDiagram (List.mem_singleton.mpr rfl)
  intro p hp
  rw [List.mem_singleton] at hp
  subst hp
  refine ⟨by norm_num [sampleRaster], by norm_num [sampleRaster], ?_⟩
  intro c hc
  rw [show sampleRaster.contours = [⟨2000, 3, 4, 60, 50⟩] from rfl, List.mem_singleton] at hc
  subst hc
  refine ⟨by norm_num [sampleRaster], by norm_num [sampleRaster], by push_cast; norm_num⟩

/-! ## The served image path (C7) -/

theorem takeWhile_all_append {α : Type} {p : α → Bool} {l₁ l₂ : List α} {x : α}
    (h1 : ∀ a ∈ l₁, p a = true) (h2 : p x = false) :
    (l₁ ++ x :: l₂).takeWhile p = l₁ := by
  induction l₁ with
  | nil => simp [List.takeWhile_cons, h2]
  | cons a as ih =>
    rw [List.cons_append, List.takeWhile_cons,
      if_pos (h1 a (List.mem_cons_self a as))]
    rw [ih (fun b hb => h1 b (List.mem_cons_of_mem a hb))]

theorem basename_append (a b : String) (hb : ∀ c ∈ b.data, ¬ c = '/') :
    basename (a ++ "/" ++ b) = b := by
  unfold basename
  have hdata : (a ++ "/" ++ b).data = a.data ++ '/' :: b.data := by
    rw [String.data_append, String.data_append]
    simp [show ("/" : String).data = ['/'] from rfl]
  rw [hdata]
  have hrev : (a.data ++ '/' :: b.data).reverse = b.data.reverse ++ '/' :: a.data.reverse := by
    rw [List.reverse_append, List.reverse_cons]
    simp
  rw [hrev]
  rw [takeWhile_all_append (p := fun c => !(c == '/'))
    (fun c hc => by
      have := hb c (List.mem_reverse.mp hc)
      simp [this])
    (by simp)]
  rw [List.reverse_reverse]

theorem no_slash_basename (s : String) : ∀ c ∈ (basename s).data, ¬ c = '/' := by
  intro c hc
  unfold basename at hc
  have hc2 := List.mem_reverse.mp hc
  have := List.mem_takeWhile_imp hc2
  simpa using this

theorem no_slash_splitextStem (s : String) (h : ∀ c ∈ s.data, ¬ c = '/') :
    ∀ c ∈ (splitextStem s).data, ¬ c = '/' := by
  unfold splitextStem
  split
  · rename_i stemRev heq
    split
    · intro c hc
      simp only at hc
      have hc2 := List.mem_reverse.mp hc
      have hc3 : c ∈ '.' :: stemRev := List.mem_cons_of_mem _ hc2
      rw [← heq] at hc3
      have hc4 : c ∈ s.data.reverse :=
        (List.dropWhile_sublist _).mem hc3
      exact h c (List.mem_reverse.mp hc4)
    · exact h
  · exact h

theorem basename_pipelineImageDir (pdfPath outputBase : String) :
    basename (pipelineImageDir pdfPath outputBase) = splitextStem (basename pdfPath) := by
  unfold pipelineImageDir joinPath
  exact basename_append _ _ (no_slash_splitextStem _ (no_slash_basename pdfPath))

theorem imagePath_assoc (bn : String) (n k : Nat) :
    "/images/" ++ bn ++ "/" ++ diagramFilename n k =
      "/images/" ++ bn ++ "/page_" ++ toString n ++ "_diagram_" ++ toString k ++ ".jpg" := by
  unfold diagramFilename
  apply String.ext
  simp only [String.data_append, List.append_assoc]
  simp [show ("/" : String).data ++ ("page_" : String).data = ("/page_" : String).data from rfl]

/-- Claim C7: in the pipeline of `extract_structured_content`, every
emitted Diagram record's `image_path` is
`/images/<bookName>/page_<n>_diagram_<k>.jpg`, where `bookName` is the
PDF file name with its extension stripped, `n` is the 1-based page
index, and `k - 1` is the contour's detection index — so the `k`s of
one page's records are strictly increasing, hence unique, in detection
order (second conjunct); the third conjunct ties the per-page equation
to the full pipeline invocation. -/
theorem diagram_image_path_spec :
    (∀ (pdfPath outputBase : String) (pnum : Nat) (p : PageRaster),
      pageDiagramsFor 3 (pipelineImageDir pdfPath outputBase) pnum p =
        (keptContours p).map (fun ic =>
          { page := pnum + 1
            x := (ic.2.x : ℚ) / 3, y := (ic.2.y : ℚ) / 3
            width := (ic.2.w : ℚ) / 3, height := (ic.2.h : ℚ) / 3
            imagePath := "/images/" ++ splitextStem (basename pdfPath) ++ "/page_"
              ++ toString (pnum + 1) ++ "_diagram_" ++ toString (ic.1 + 1) ++ ".jpg" })) ∧
    (∀ p : PageRaster,
      List.Pairwise (fun i k => i < k) ((keptContours p).map (fun ic => ic.1 + 1))) ∧
    (∀ (pdfPath outputBase : String) (rasters : List PageRaster),
      pipelineDiagrams pdfPath outputBase rasters =
        (rasters.enum.map (fun np =>
          pageDiagramsFor 3 (pipelineImageDir pdfPath outputBase) np.1 np.2)).flatten) := by
  refine ⟨?_, ?_, fun _ _ _ => rfl⟩
  · intro pdfPath outputBase pnum p
    have h1 : pageDiagramsFor 3 (pipelineImageDir pdfPath outputBase) pnum p =
        (keptContours p).map (fun ic =>
          { page := pnum + 1
            x := (ic.2.x : ℚ) / 3, y := (ic.2.y : ℚ) / 3
            width := (ic.2.w : ℚ) / 3, height := (ic.2.h : ℚ) / 3
            imagePath := "/images/" ++ basename (pipelineImageDir pdfPath outputBase) ++ "/"
              ++ diagramFilename (pnum + 1) (ic.1 + 1) }) := by
      unfold pageDiagramsFor keptContours
      exact filterMap_if_eq_filter_map _ _ _
    rw [h1]
    apply List.map_congr_left
    intro ic hic
    rw [basename_pipelineImageDir, imagePath_assoc]
  · intro p
    have hp : List.Pairwise (fun a b : Nat × Contour => a.1 < b.1) (keptContours p) := by
      unfold keptContours
      exact (pairwise_fst_lt_enumFrom p.contours 0).filter _
    rw [List.pairwise_map]
    exact hp.imp (fun h => Nat.succ_lt_succ h)

/-! ## Upload endpoint and persistence (C8, C9) -/

/-- Counterexample to C8 as stated: a request whose `files` field holds
one empty-named file and one normal file is *not* rejected — the
empty-named file is silently skipped, the other file is fully
processed, and the response is a success carrying its result. -/
theorem empty_filename_not_rejected_cex :
    upload_pdf (some ["", "a.pdf"]) (fun s => s) (fun _ => DbBehavior.ok) =
      Except.ok ["a.pdf"] := rfl

theorem uploadLoop_eq {α : Type} (extract : String → α) (db : String → DbBehavior) :
    ∀ fs : List String,
      uploadLoop extract db fs = (fs.filter (fun f => !(f == ""))).map extract := by
  intro fs
  induction fs with
  | nil => rfl
  | cons f fs ih =>
    rw [List.filter_cons]
    by_cases hf : (f == "") = true
    · simp [uploadLoop, hf, ih]
    · simp [uploadLoop, hf, ih]

/-- Claim C8 (amended): a request with no `files` multipart field is
rejected with a client-facing error before any file is processed; a
file with an empty filename is silently skipped (the extraction core is
never invoked for it) while the remaining files are processed normally
— the result list is exactly the core's output on the files with
non-empty names, with no error response for the empty ones. -/
theorem upload_validation_behavior :
    (∀ (α : Type) (extract : String → α) (db : String → DbBehavior),
      upload_pdf none extract db = Except.error "'files' field is missing") ∧
    (∀ (α : Type) (extract : String → α) (db : String → DbBehavior) (fs : List String),
      upload_pdf (some fs) extract db =
        Except.ok ((fs.filter (fun f => !(f == ""))).map extract)) := by
  refine ⟨fun _ _ _ => rfl, ?_⟩
  intro α extract db fs
  unfold upload_pdf
  dsimp only
  rw [uploadLoop_eq]

/-- Claim C9: every exception the MySQL layer raises inside
`save_json_to_mysql`'s `try` block is absorbed (the function returns an
`absorbed` log instead of propagating), and the upload response is
completely independent of the persistence layer's behavior — the
extraction results are returned unchanged whatever the database does. -/
theorem persistence_failure_absorbed :
    (∀ (α : Type) (data : α) (db : DbBehavior) (e : PyExc),
      saveBody data db = Except.error e →
      ∃ m, save_json_to_mysql data db = SaveOutcome.absorbed m) ∧
    (∀ (α : Type) (filesField : Option (List String)) (extract : String → α)
      (db db' : String → DbBehavior),
      upload_pdf filesField extract db = upload_pdf filesField extract db') := by
  constructor
  · intro α data db e he
    unfold save_json_to_mysql
    rw [he]
    cases e with
    | mysqlError m => exact ⟨"MySQL error: " ++ m, rfl⟩
    | otherError m => exact ⟨"General error: " ++ m, rfl⟩
  · intro α filesField extract db db'
    cases filesField with
    | none => rfl
    | some fs =>
      unfold upload_pdf
      dsimp only
      rw [uploadLoop_eq, uploadLoop_eq]

/-- Witness for C9 at a concrete failing database. -/
theorem persistence_failure_absorbed_witness :
    ∃ m, save_json_to_mysql (0 : Nat) (DbBehavior.connectFail "refused") =
      SaveOutcome.absorbed m :=
  persistence_failure_absorbed.1 Nat 0 (DbBehavior.connectFail "refused")
    (PyExc.mysqlError "refused") rfl
